import Mathlib

/-!
Verification development for `django_mongoengine/forms/documents.py`: a shim
letting mongoengine documents drive Django's model-form machinery.

The Python module is embedded shallowly:
  * a mongoengine field descriptor becomes a `Field` record (its class tests
    `isinstance(f, ObjectIdField)` / `isinstance(f, FileField)` become boolean
    flags, and the `AttributeError` that `f.editable` may raise for the
    implicit inherited `StringField` is the flag `hasEditable = false`);
  * a document instance becomes a `DocInstance` record: an attribute map plus
    an object identity, a class name, a database-save counter and the state of
    its `pk` attribute;
  * `save_form_data` is the descriptor's setter; a descriptor that raises
    mongoengine `ValidationError` on assignment carries `saveError = some msg`;
  * module-level exceptions become the inductive `PyExc`.
Mutation is explicit state passing, `raise` is `Except`.
-/

namespace DjangoMongoengine

/-- A mongoengine field descriptor, as `construct_instance` inspects it. -/
structure Field where
  name : String
  /-- `false` models the field raising `AttributeError` on `f.editable`
  (the implicit `StringField()` added for inherited fields). -/
  hasEditable : Bool
  editable : Bool
  isObjectIdField : Bool
  isFileField : Bool
  /-- `some msg`: this descriptor's `save_form_data` raises
  mongoengine `ValidationError(msg)` instead of assigning. -/
  saveError : Option String
deriving DecidableEq, Repr

/-- State of `instance.pk`: absent documents raise `KeyError`/`AttributeError`
when the attribute is read (embedded documents). -/
inductive PkState
  | noPk
  | pk (v : Nat)
  | pkRaises
deriving DecidableEq, Repr

/-- Attribute values held by a document; the claims never depend on the value
type, so plain naturals stand in. -/
abbrev Val := Nat

/-- Read an attribute from an attribute map. -/
def getValue : List (String × Val) → String → Option Val
  | [], _ => none
  | (k, v) :: rest, n => if k = n then some v else getValue rest n

/-- Assign an attribute in an attribute map (Python `setattr` semantics:
overwrite if present, add otherwise). -/
def setValue : List (String × Val) → String → Val → List (String × Val)
  | [], n, v => [(n, v)]
  | (k, w) :: rest, n, v =>
      if k = n then (n, v) :: rest else (k, w) :: setValue rest n v

/-- A mongoengine document instance. `objId` is Python object identity,
`saveCount` counts calls to the database-saving `instance.save()`,
`metaFields` is `instance._meta.fields` (the attribute `_post_clean` patches
onto the mongo `MetaDict`). -/
structure DocInstance where
  objId : Nat
  className : String
  values : List (String × Val)
  metaFields : List Field
  saveCount : Nat
  pkState : PkState
deriving DecidableEq, Repr

/-- Mongoengine `ValidationError`, the exception `_post_clean` catches. -/
structure MongoValidationError where
  msg : String
deriving DecidableEq, Repr

/-- `f.save_form_data(instance, value)`: the descriptor assigns the cleaned
value onto the instance attribute, or raises `ValidationError`. -/
def Field.save_form_data (f : Field) (inst : DocInstance) (v : Val) :
    Except MongoValidationError DocInstance :=
  match f.saveError with
  | some m => .error ⟨m⟩
  | none => .ok { inst with values := setValue inst.values f.name v }

/-- The skip conditions of the loop in `construct_instance`, in source order:
`AttributeError` on `f.editable` skips; `not f.editable`,
`isinstance(f, ObjectIdField)` and `f.name not in cleaned_data` skip;
`fields is not None and f.name not in fields` skips;
`exclude and f.name in exclude` skips. -/
def fieldSelected (cleaned : List (String × Val)) (fields : Option (List String))
    (exclude : List String) (f : Field) : Bool :=
  f.hasEditable &&
  (f.editable && !f.isObjectIdField && (getValue cleaned f.name).isSome) &&
  (match fields with
   | some fs => fs.contains f.name
   | none => true) &&
  !(!exclude.isEmpty && exclude.contains f.name)

/-- The sequence of `save_form_data` calls `construct_instance` makes: the
single pass over `opts.fields` handles non-file fields immediately and pushes
`FileField`s onto `file_field_list`, which is drained afterwards, so the call
order is the selected non-file fields followed by the selected file fields,
each in meta order. -/
def constructPlan (cleaned : List (String × Val)) (fields : Option (List String))
    (exclude : List String) (metaFields : List Field) : List Field :=
  let sel := metaFields.filter (fieldSelected cleaned fields exclude)
  sel.filter (fun f => !f.isFileField) ++ sel.filter (fun f => f.isFileField)

/-- Execute the `save_form_data` calls in order. A `ValidationError` aborts the
remaining calls; the writes already made stay on the instance (Python mutates
in place), and the error is reported alongside. -/
def runPlan (cleaned : List (String × Val)) :
    DocInstance → List Field → DocInstance × Option MongoValidationError
  | inst, [] => (inst, none)
  | inst, f :: rest =>
      match f.save_form_data inst ((getValue cleaned f.name).getD 0) with
      | .ok inst1 => runPlan cleaned inst1 rest
      | .error e => (inst, some e)

/-- `construct_instance(form, instance, fields, exclude)`: copies the bound
form's `cleaned_data` onto the instance without saving it to the database.
`exclude = []` covers both Python `None` and an empty list (both falsy in
`if exclude and ...`). The pair's second component is the uncaught
`ValidationError`, `none` when the Python call returns normally. -/
def construct_instance (cleaned : List (String × Val)) (inst : DocInstance)
    (fields : Option (List String)) (exclude : List String) :
    DocInstance × Option MongoValidationError :=
  runPlan cleaned inst (constructPlan cleaned fields exclude inst.metaFields)

/-! ### Basic lemmas about attribute maps and plan execution -/

/-- The exceptions the embedded module can raise: `TypeError` (string for
sequence in `Meta`), Django's `ImproperlyConfigured` and `FieldError`
(metaclass checks), `ValueError` (`save` on an invalid form), and the
mongoengine `ValidationError` that `_post_clean` catches and translates. -/
inductive PyExc
  | typeError (msg : String)
  | improperlyConfigured (msg : String)
  | fieldError (msg : String)
  | valueError (msg : String)
  | validationError (msg : String)
deriving DecidableEq, Repr

/-- An apostrophe, kept out of string literals. -/
def apos : String := String.mk [Char.ofNat 39]

/-- `BaseDocumentForm`, the slice of its state the lifecycle methods read:
`instance` is `inst` here; `optsFields` is `self._meta.fields`,
`modelMetaFields` is `opts.model._meta.fields`, `validationExclusions` is
what `self._get_validation_exclusions()` returned (host-framework owned). -/
structure BaseDocumentForm where
  cleaned_data : List (String × Val)
  errors : List String
  inst : DocInstance
  optsFields : Option (List String)
  modelMetaFields : List Field
  validationExclusions : List String
deriving DecidableEq, Repr

/-- `BaseDocumentForm._save_m2m`: `pass`. -/
def BaseDocumentForm.save_m2m_noop (form : BaseDocumentForm) : BaseDocumentForm :=
  form

/-- `BaseDocumentForm._post_clean`: patch `instance._meta.fields` with the
model's meta fields, run `construct_instance` with `opts.fields` and the
validation exclusions, and on mongoengine `ValidationError` record the failure
as a form error via `self._update_errors` (modelled as appending the message)
instead of re-raising. The writes made before the error remain on the
instance, which Python mutated in place. -/
def BaseDocumentForm.post_clean (form : BaseDocumentForm) : BaseDocumentForm :=
  let inst0 : DocInstance := { form.inst with metaFields := form.modelMetaFields }
  let r := construct_instance form.cleaned_data inst0 form.optsFields
    form.validationExclusions
  match r.2 with
  | none => { form with inst := r.1 }
  | some e => { form with inst := r.1, errors := form.errors ++ [e.msg] }

/-- `instance.save()`: the database write, counted. -/
def DocInstance.dbSave (inst : DocInstance) : DocInstance :=
  { inst with saveCount := inst.saveCount + 1 }

/-- The `fail_message` of `BaseDocumentForm.save`: `"created"` when
`instance.pk` is `None`, `"changed"` when it is set, and
`"embedded document saved"` when reading `pk` raises
`KeyError`/`AttributeError`. -/
def failMessage : PkState → String
  | .noPk => "created"
  | .pk _ => "changed"
  | .pkRaises => "embedded document saved"

/-- Outcome of `BaseDocumentForm.save`: the returned value or raised
exception, the state `self.instance` is left in, and whether `self.save_m2m`
was rebound to the no-op `_save_m2m`. -/
structure SaveOutcome where
  result : Except PyExc DocInstance
  finalInstance : DocInstance
  m2mRebound : Bool
deriving Repr

/-- `BaseDocumentForm.save(commit)`: raise `ValueError` when the form has
errors (before any database write), otherwise save to the database exactly
when `commit` is true, bind `save_m2m` to the no-op when it is false, and
return `self.instance`. -/
def BaseDocumentForm.save (form : BaseDocumentForm) (commit : Bool) : SaveOutcome :=
  if !form.errors.isEmpty then
    { result := .error (.valueError ("The " ++ form.inst.className ++
        " could not be " ++ failMessage form.inst.pkState ++
        " because the data didn" ++ apos ++ "t validate.")),
      finalInstance := form.inst, m2mRebound := false }
  else if commit then
    let inst1 := form.inst.dbSave
    { result := .ok inst1, finalInstance := inst1, m2mRebound := false }
  else
    { result := .ok form.inst, finalInstance := form.inst, m2mRebound := true }

/-! ### `DocumentFormOptions` and `DocumentFormMetaclass.__new__` -/

/-- A value a `Meta` attribute can hold, as far as the metaclass inspects it:
unset (`None`), a string (`isinstance(value, six.string_types)`), or a
sequence of names. -/
inductive MetaVal
  | noneV
  | strV (s : String)
  | listV (xs : List String)
deriving DecidableEq, Repr

/-- Django's `ALL_FIELDS` sentinel. -/
def ALL_FIELDS : String := "__all__"

/-- A document class as the metaclass sees it: its `__name__` and the names of
the meta fields `fields_for_model` turns into form fields. -/
structure DocModel where
  name : String
  fieldNames : List String
deriving DecidableEq, Repr

/-- The attributes the options code reads off a form's `Meta` class. -/
structure MetaRaw where
  document : Option DocModel
  model : Option DocModel
  fields : MetaVal
  exclude : MetaVal
  localized_fields : MetaVal
deriving DecidableEq, Repr

/-- The slice of `ModelFormOptions`/`DocumentFormOptions` state the claims
touch. -/
structure DocumentFormOptions where
  model : Option DocModel
  fields : MetaVal
  exclude : MetaVal
  localized_fields : MetaVal
deriving DecidableEq, Repr

/-- `ModelFormOptions.__init__` (the `super()` call): each attribute is
`getattr(options, name, None)`. -/
def mkModelFormOptions (options : Option MetaRaw) : DocumentFormOptions :=
  { model := options.bind (fun o => o.model)
    fields := match options with | none => .noneV | some o => o.fields
    exclude := match options with | none => .noneV | some o => o.exclude
    localized_fields := match options with | none => .noneV | some o => o.localized_fields }

/-- `DocumentFormOptions.__init__`: after the `super()` call, `self.model`
becomes `getattr(options, "document", None) or getattr(options, "model",
None)` (a class is truthy, `None` is falsy), and when that resolves, the
result is written back onto `options.model`. Returns the options object and
the possibly-updated `Meta` object. -/
def mkDocumentFormOptions (options : Option MetaRaw) :
    DocumentFormOptions × Option MetaRaw :=
  let base := mkModelFormOptions options
  let m : Option DocModel :=
    (options.bind (fun o => o.document)).orElse (fun _ => options.bind (fun o => o.model))
  let options1 : Option MetaRaw :=
    match m with
    | none => options
    | some mm => options.map (fun o => { o with model := some mm })
  ({ base with model := m }, options1)

/-- The message of the string-for-sequence `TypeError`:
`"%(model)s.Meta.%(opt)s cannot be a string. Did you mean to type:
('%(value)s',)?"`. -/
def stringOptMsg (clsName opt value : String) : String :=
  clsName ++ ".Meta." ++ opt ++ " cannot be a string. Did you mean to type: (" ++
    apos ++ value ++ apos ++ ",)?"

/-- One iteration of the metaclass loop over `["fields", "exclude",
"localized_fields"]`: a string value other than `ALL_FIELDS` raises
`TypeError` suggesting the one-element tuple spelling. -/
def stringOptCheck (clsName opt : String) (value : MetaVal) : Except PyExc Unit :=
  match value with
  | .strV s =>
      if s = ALL_FIELDS then .ok ()
      else .error (.typeError (stringOptMsg clsName opt s))
  | _ => .ok ()

/-- How `fields_for_model` consumes a `Meta` value at this point of the
metaclass: `None` stays `None`, a sequence is itself. (A string value other
than `ALL_FIELDS` raised `TypeError` earlier, and `fields == ALL_FIELDS` was
rewritten to `None`, so the `strV` arm is unreachable; it conservatively
stands for the one-name case.) -/
def metaValToNames : MetaVal → Option (List String)
  | .noneV => none
  | .strV s => some [s]
  | .listV xs => some xs

/-- Modelled from the host framework's contract: Django's
`fields_for_model(model, fields, exclude, ...)` returns an ordered mapping
with one entry per selected name; a requested name unknown to the model is
kept with a `None` form field (`false` here), which is exactly what the
metaclass's unknown-field check looks for. With `fields=None` it walks the
model's own fields; excluded names are dropped. Widget/label/callback
arguments only shape the synthesized form fields and are omitted. -/
def fields_for_model (m : DocModel) (fields : Option (List String))
    (exclude : Option (List String)) : List (String × Bool) :=
  let excluded : String → Bool := fun n =>
    match exclude with
    | none => false
    | some ex => ex.contains n
  match fields with
  | none => m.fieldNames.filterMap
      (fun n => if excluded n then none else some (n, true))
  | some fs => fs.filterMap
      (fun n => if excluded n then none else some (n, m.fieldNames.contains n))

/-- Python dict `update`: the keys of `fields.update(declared_fields)`. -/
def dictUpdateKeys (base decl : List String) : List String :=
  base ++ decl.filter (fun d => !base.contains d)

/-- What `DocumentFormMetaclass.__new__` produces for a non-base class: the
`_meta` options and the keys of `base_fields`. -/
structure FormClassResult where
  opts : DocumentFormOptions
  base_fields : List String
deriving DecidableEq, Repr

/-- The `ImproperlyConfigured` message for a model form that sets neither
`fields` nor `exclude`. -/
def needsFieldsMsg (name : String) : String :=
  "Creating a ModelForm without either the " ++ apos ++ "fields" ++ apos ++
    " attribute or the " ++ apos ++ "exclude" ++ apos ++
    " attribute is prohibited; form " ++ name ++ " needs updating."

/-- The `FieldError` message for `opts.fields` naming unknown fields.
`missing_fields` is a Python `set` difference, so the embedding deduplicates;
the join order of a `set` is unspecified and the claims only use the message
opaquely. -/
def unknownFieldsMsg (missing : List String) (modelName : String) : String :=
  "Unknown field(s) (" ++ String.intercalate ", " missing.eraseDups ++
    ") specified for " ++ modelName

/-- The `if opts.model:` block of `DocumentFormMetaclass.__new__`: when a
model is configured, enforce the fields/exclude requirement, rewrite
`fields == ALL_FIELDS` to `None`, call `fields_for_model`, reject requested
names unknown to the model and not declared on the form, and merge declared
fields into `base_fields`; with no model, `base_fields` is just the declared
fields. -/
def metaclassNewModel (name : String) (opts : DocumentFormOptions)
    (declaredFields : List String) : Except PyExc FormClassResult :=
  match opts.model with
  | none => .ok { opts := opts, base_fields := declaredFields }
  | some m =>
      if opts.fields = .noneV ∧ opts.exclude = .noneV then
        .error (.improperlyConfigured (needsFieldsMsg name))
      else
        let fields1 := if opts.fields = .strV ALL_FIELDS then .noneV else opts.fields
        let ff := fields_for_model m (metaValToNames fields1) (metaValToNames opts.exclude)
        let none_model_fields := (ff.filter (fun p => p.2 = false)).map Prod.fst
        let missing := none_model_fields.filter (fun k => !declaredFields.contains k)
        if missing.isEmpty then
          .ok { opts := { opts with fields := fields1 },
                base_fields := dictUpdateKeys (ff.map Prod.fst) declaredFields }
        else
          .error (.fieldError (unknownFieldsMsg missing m.name))

/-- `DocumentFormMetaclass.__new__` past the `bases == (BaseDocumentForm,)`
early return: build `DocumentFormOptions` from `Meta` (mutating it), run the
string-for-sequence check over `fields`, `exclude`, `localized_fields` in
that order, then run the model block. -/
def metaclassNew (name : String) (meta : Option MetaRaw)
    (declaredFields : List String) : Except PyExc FormClassResult :=
  let opts := (mkDocumentFormOptions meta).1
  match stringOptCheck name "fields" opts.fields with
  | .error e => .error e
  | .ok _ =>
  match stringOptCheck name "exclude" opts.exclude with
  | .error e => .error e
  | .ok _ =>
  match stringOptCheck name "localized_fields" opts.localized_fields with
  | .error e => .error e
  | .ok _ => metaclassNewModel name opts declaredFields

/-- `documentform_factory`: hands every argument, in order, to the host
framework's `modelform_factory` (here an arbitrary function `mff`, since
Django owns it), including the trailing `*args`/`**kwargs`, and returns its
result unchanged. In the source, `form` defaults to `DocumentForm` and the
optional arguments to `None`. -/
def documentform_factory {M F C W L La H E X R : Type}
    (mff : M → F → Option (List String) → Option (List String) → Option C →
      Option W → Option L → Option La → Option H → Option E → List X → R)
    (model : M) (form : F) (fields : Option (List String))
    (exclude : Option (List String)) (formfield_callback : Option C)
    (widgets : Option W) (localized_fields : Option L) (labels : Option La)
    (help_texts : Option H) (error_messages : Option E) (extra : List X) : R :=
  mff model form fields exclude formfield_callback widgets localized_fields
    labels help_texts error_messages extra

/-! ### Concrete data used by the witnesses -/

def titleField : Field :=
  { name := "title", hasEditable := true, editable := true,
    isObjectIdField := false, isFileField := false, saveError := none }

def bodyField : Field :=
  { name := "body", hasEditable := true, editable := true,
    isObjectIdField := false, isFileField := false, saveError := none }

def uploadField : Field :=
  { name := "upload", hasEditable := true, editable := true,
    isObjectIdField := false, isFileField := true, saveError := none }

def idField : Field :=
  { name := "id", hasEditable := true, editable := true,
    isObjectIdField := true, isFileField := false, saveError := none }

def lockedField : Field :=
  { name := "locked", hasEditable := true, editable := false,
    isObjectIdField := false, isFileField := false, saveError := none }

def legacyField : Field :=
  { name := "legacy", hasEditable := false, editable := true,
    isObjectIdField := false, isFileField := false, saveError := none }

def articleInstance : DocInstance :=
  { objId := 7, className := "Article",
    values := [("id", 1), ("title", 10), ("locked", 3), ("legacy", 4)],
    metaFields := [idField, titleField, bodyField, lockedField, legacyField, uploadField],
    saveCount := 0, pkState := .noPk }

def articleCleaned : List (String × Val) :=
  [("id", 99), ("title", 11), ("body", 12), ("locked", 13), ("legacy", 14),
   ("upload", 15)]

def validForm : BaseDocumentForm :=
  { cleaned_data := articleCleaned, errors := [], inst := articleInstance,
    optsFields := none, modelMetaFields := articleInstance.metaFields,
    validationExclusions := [] }

def invalidForm : BaseDocumentForm :=
  { cleaned_data := articleCleaned, errors := ["title: this field is required"],
    inst := articleInstance, optsFields := none,
    modelMetaFields := articleInstance.metaFields, validationExclusions := [] }

def badFieldsMeta : MetaRaw :=
  { document := none, model := none, fields := .strV "title",
    exclude := .noneV, localized_fields := .noneV }

def articleModel : DocModel :=
  { name := "Article", fieldNames := ["title", "body", "upload"] }

def otherModel : DocModel := { name := "Other", fieldNames := ["x"] }

def noFieldsMeta : MetaRaw :=
  { document := some articleModel, model := none, fields := .noneV,
    exclude := .noneV, localized_fields := .noneV }

def docAndModelMeta : MetaRaw :=
  { document := some articleModel, model := some otherModel,
    fields := .listV ["title"], exclude := .noneV,
    localized_fields := .noneV }

/-- The error taxonomy the spec names: configuration errors, field errors and
validation errors. -/
def inSpecTaxonomy : PyExc → Bool
  | .improperlyConfigured _ => true
  | .fieldError _ => true
  | .validationError _ => true
  | .typeError _ => false
  | .valueError _ => false

def stringMetaX : MetaRaw :=
  { document := none, model := none, fields := .strV "fo",
    exclude := .noneV, localized_fields := .noneV }

/-! ### Lemmas and claims -/

theorem getValue_setValue_self (vs : List (String × Val)) (n : String) (v : Val) :
    getValue (setValue vs n v) n = some v := by
  induction vs with
  | nil => simp [setValue, getValue]
  | cons p rest ih =>
      obtain ⟨k, w⟩ := p
      by_cases hk : k = n <;> simp [setValue, getValue, hk, ih]

theorem getValue_setValue_other (vs : List (String × Val)) (n m : String) (v : Val)
    (h : m ≠ n) : getValue (setValue vs n v) m = getValue vs m := by
  induction vs with
  | nil => simp [setValue, getValue, Ne.symm h]
  | cons p rest ih =>
      obtain ⟨k, w⟩ := p
      by_cases hk : k = n
      · subst hk
        simp [setValue, getValue, Ne.symm h]
      · by_cases hm : k = m
        · subst hm
          simp [setValue, getValue, hk]
        · simp [setValue, getValue, hk, hm, ih]

/-- `save_form_data` only touches the attribute map: identity, class, meta
fields, save counter and pk state are untouched. -/
theorem save_form_data_frame (f : Field) (inst inst1 : DocInstance) (v : Val)
    (h : f.save_form_data inst v = .ok inst1) :
    inst1.objId = inst.objId ∧ inst1.className = inst.className ∧
    inst1.metaFields = inst.metaFields ∧ inst1.saveCount = inst.saveCount ∧
    inst1.pkState = inst.pkState := by
  unfold Field.save_form_data at h
  cases hse : f.saveError with
  | some m => rw [hse] at h; cases h
  | none =>
      rw [hse] at h
      cases h
      simp

/-- Plan execution never touches identity, class, meta fields, save counter or
pk state (in particular `construct_instance` never calls `instance.save()`). -/
theorem runPlan_frame (cleaned : List (String × Val)) (plan : List Field)
    (inst : DocInstance) :
    (runPlan cleaned inst plan).1.objId = inst.objId ∧
    (runPlan cleaned inst plan).1.className = inst.className ∧
    (runPlan cleaned inst plan).1.metaFields = inst.metaFields ∧
    (runPlan cleaned inst plan).1.saveCount = inst.saveCount ∧
    (runPlan cleaned inst plan).1.pkState = inst.pkState := by
  induction plan generalizing inst with
  | nil => simp [runPlan]
  | cons f rest ih =>
      cases hsf : f.save_form_data inst ((getValue cleaned f.name).getD 0) with
      | ok inst1 =>
          have hfr := save_form_data_frame f inst inst1 _ hsf
          have hrest := ih inst1
          simp only [runPlan, hsf]
          exact ⟨hrest.1.trans hfr.1, hrest.2.1.trans hfr.2.1,
            hrest.2.2.1.trans hfr.2.2.1, hrest.2.2.2.1.trans hfr.2.2.2.1,
            hrest.2.2.2.2.trans hfr.2.2.2.2⟩
      | error e => simp [runPlan, hsf]

/-- Attributes whose name is hit by no call of the plan keep their value,
whether or not the run aborts on a `ValidationError`. -/
theorem runPlan_frame_value (cleaned : List (String × Val)) (plan : List Field)
    (inst : DocInstance) (n : String) (hn : ∀ f ∈ plan, f.name ≠ n) :
    getValue (runPlan cleaned inst plan).1.values n = getValue inst.values n := by
  induction plan generalizing inst with
  | nil => simp [runPlan]
  | cons f rest ih =>
      cases hsf : f.save_form_data inst ((getValue cleaned f.name).getD 0) with
      | ok inst1 =>
          have hvals : inst1.values = setValue inst.values f.name ((getValue cleaned f.name).getD 0) := by
            unfold Field.save_form_data at hsf
            cases hse : f.saveError with
            | some m => rw [hse] at hsf; cases hsf
            | none => rw [hse] at hsf; cases hsf; rfl
          have hne : n ≠ f.name := fun h => hn f (List.mem_cons_self f rest) h.symm
          simp only [runPlan, hsf]
          rw [ih inst1 (fun g hg => hn g (List.mem_cons_of_mem f hg)), hvals,
            getValue_setValue_other _ _ _ _ hne]
      | error e => simp [runPlan, hsf]

/-- When no selected descriptor raises, plan execution reports no error (the
Python call returns normally). -/
theorem runPlan_no_error (cleaned : List (String × Val)) (plan : List Field)
    (inst : DocInstance) (hok : ∀ f ∈ plan, f.saveError = none) :
    (runPlan cleaned inst plan).2 = none := by
  induction plan generalizing inst with
  | nil => simp [runPlan]
  | cons f rest ih =>
      have hf : f.saveError = none := hok f (List.mem_cons_self f rest)
      simp only [runPlan, Field.save_form_data, hf]
      exact ih _ (fun g hg => hok g (List.mem_cons_of_mem f hg))

/-- When no descriptor raises and the call names are distinct, every planned
field ends up holding its cleaned value on the instance. -/
theorem runPlan_writes (cleaned : List (String × Val)) (plan : List Field)
    (inst : DocInstance) (hnodup : (plan.map Field.name).Nodup)
    (hok : ∀ f ∈ plan, f.saveError = none) (f : Field) (hf : f ∈ plan) :
    getValue (runPlan cleaned inst plan).1.values f.name
      = some ((getValue cleaned f.name).getD 0) := by
  induction plan generalizing inst with
  | nil => cases hf
  | cons g rest ih =>
      have hg : g.saveError = none := hok g (List.mem_cons_self g rest)
      simp only [runPlan, Field.save_form_data, hg]
      have hcons : (g.name :: rest.map Field.name).Nodup := by
        simpa using hnodup
      rcases List.mem_cons.mp hf with hfg | hfr
      · subst hfg
        have hrest : ∀ h ∈ rest, h.name ≠ f.name := by
          intro h hh he
          exact (List.nodup_cons.mp hcons).1 (he ▸ List.mem_map_of_mem Field.name hh)
        rw [runPlan_frame_value cleaned rest _ f.name hrest]
        simp [getValue_setValue_self]
      · exact ih _ (by simpa using (List.nodup_cons.mp hcons).2)
          (fun h hh => hok h (List.mem_cons_of_mem g hh)) hfr

/-- The call sequence is a permutation of the selected fields in meta order:
the loop only reorders file fields behind the rest. -/
theorem constructPlan_perm (cleaned : List (String × Val))
    (fields : Option (List String)) (exclude : List String)
    (metaFields : List Field) :
    (constructPlan cleaned fields exclude metaFields).Perm
      (metaFields.filter (fieldSelected cleaned fields exclude)) := by
  unfold constructPlan
  have h := List.filter_append_perm (fun f => !f.isFileField)
    (metaFields.filter (fieldSelected cleaned fields exclude))
  simpa using h

/-- A field receives a `save_form_data` call iff it is one of the instance's
meta fields and passes every skip test of the loop. -/
theorem mem_constructPlan (cleaned : List (String × Val))
    (fields : Option (List String)) (exclude : List String)
    (metaFields : List Field) (f : Field) :
    f ∈ constructPlan cleaned fields exclude metaFields ↔
      f ∈ metaFields ∧ fieldSelected cleaned fields exclude f = true := by
  rw [(constructPlan_perm cleaned fields exclude metaFields).mem_iff,
    List.mem_filter]

/-- Distinct meta-field names give distinct call names. -/
theorem constructPlan_names_nodup (cleaned : List (String × Val))
    (fields : Option (List String)) (exclude : List String)
    (metaFields : List Field) (h : (metaFields.map Field.name).Nodup) :
    ((constructPlan cleaned fields exclude metaFields).map Field.name).Nodup := by
  have hsub : (metaFields.filter (fieldSelected cleaned fields exclude)).Sublist metaFields :=
    List.filter_sublist metaFields
  have hnd : ((metaFields.filter (fieldSelected cleaned fields exclude)).map Field.name).Nodup :=
    (hsub.map Field.name).nodup h
  exact (((constructPlan_perm cleaned fields exclude metaFields).map Field.name).nodup_iff).mpr hnd

/-! ### The module's exceptions and the form lifecycle -/

theorem mkDocumentFormOptions_fields (o : MetaRaw) :
    (mkDocumentFormOptions (some o)).1.fields = o.fields := rfl

theorem mkDocumentFormOptions_exclude (o : MetaRaw) :
    (mkDocumentFormOptions (some o)).1.exclude = o.exclude := rfl

theorem mkDocumentFormOptions_localized (o : MetaRaw) :
    (mkDocumentFormOptions (some o)).1.localized_fields = o.localized_fields := rfl

theorem mkDocumentFormOptions_model_eq (o : MetaRaw) :
    (mkDocumentFormOptions (some o)).1.model
      = (o.document.orElse (fun _ => o.model)) := rfl

theorem stringOptCheck_passes (n o : String) (v : MetaVal)
    (h : ∀ t, v = .strV t → t = ALL_FIELDS) :
    stringOptCheck n o v = .ok () := by
  cases v with
  | noneV => rfl
  | listV xs => rfl
  | strV s => simp [stringOptCheck, h s rfl]

theorem stringOptCheck_rejects (n o s : String) (h : s ≠ ALL_FIELDS) :
    stringOptCheck n o (.strV s) = .error (.typeError (stringOptMsg n o s)) := by
  simp [stringOptCheck, h]

theorem stringOptCheck_error_shape (n o : String) (v : MetaVal) (e : PyExc)
    (h : stringOptCheck n o v = .error e) : ∃ m, e = .typeError m := by
  cases v with
  | noneV => simp [stringOptCheck] at h
  | listV xs => simp [stringOptCheck] at h
  | strV s =>
      by_cases hs : s = ALL_FIELDS
      · simp [stringOptCheck, hs] at h
      · simp [stringOptCheck, hs] at h
        exact ⟨stringOptMsg n o s, h.symm⟩

theorem metaclassNewModel_error_shape (name : String) (opts : DocumentFormOptions)
    (declared : List String) (e : PyExc)
    (h : metaclassNewModel name opts declared = .error e) :
    e = .improperlyConfigured (needsFieldsMsg name) ∨ ∃ m, e = .fieldError m := by
  unfold metaclassNewModel at h
  split at h
  · cases h
  · split at h
    · cases h
      exact Or.inl rfl
    · split at h <;> dsimp only at h <;> split at h
      · cases h
      · cases h
        exact Or.inr ⟨_, rfl⟩
      · cases h
      · cases h
        exact Or.inr ⟨_, rfl⟩

theorem metaclassNew_eq_model (name : String) (meta : Option MetaRaw)
    (declared : List String)
    (hf : stringOptCheck name "fields" (mkDocumentFormOptions meta).1.fields = .ok ())
    (he : stringOptCheck name "exclude" (mkDocumentFormOptions meta).1.exclude = .ok ())
    (hl : stringOptCheck name "localized_fields"
      (mkDocumentFormOptions meta).1.localized_fields = .ok ()) :
    metaclassNew name meta declared
      = metaclassNewModel name (mkDocumentFormOptions meta).1 declared := by
  simp only [metaclassNew, hf, he, hl]

theorem fieldSelected_eq_false (cleaned : List (String × Val))
    (fields : Option (List String)) (exclude : List String) (f : Field)
    (h : f.hasEditable = false ∨ f.editable = false ∨ f.isObjectIdField = true ∨
         getValue cleaned f.name = none ∨
         (∃ fs, fields = some fs ∧ fs.contains f.name = false) ∨
         f.name ∈ exclude) :
    fieldSelected cleaned fields exclude f = false := by
  unfold fieldSelected
  rcases h with h|h|h|h|⟨fs,rfl,hc⟩|h
  · simp [h]
  · simp [h]
  · simp [h]
  · simp [h]
  · have hc1 : f.name ∉ fs := by simpa using hc
    simp [hc1]
  · simp [h, List.ne_nil_of_mem h]

/-- A field failing a skip test gets no `save_form_data` call, and (under the
distinct-field-names invariant kept by the document's meta) its attribute is
left untouched by `construct_instance`. -/
theorem construct_skips_unselected (cleaned : List (String × Val))
    (fields : Option (List String)) (exclude : List String) (inst : DocInstance)
    (f : Field) (hmem : f ∈ inst.metaFields)
    (hnodup : (inst.metaFields.map Field.name).Nodup)
    (hsel : fieldSelected cleaned fields exclude f = false) :
    f ∉ constructPlan cleaned fields exclude inst.metaFields ∧
    getValue (construct_instance cleaned inst fields exclude).1.values f.name
      = getValue inst.values f.name := by
  have hnot : f ∉ constructPlan cleaned fields exclude inst.metaFields := by
    intro hf
    have hsel1 := ((mem_constructPlan _ _ _ _ f).mp hf).2
    rw [hsel] at hsel1
    cases hsel1
  refine ⟨hnot, ?_⟩
  unfold construct_instance
  apply runPlan_frame_value
  intro g hg he
  have hgm := (mem_constructPlan _ _ _ _ g).mp hg
  have hgf : g = f :=
    List.inj_on_of_nodup_map hnodup hgm.1 hmem he
  rw [hgf] at hg
  exact hnot hg

/-! ### Concrete data for witnesses -/

/-- C2: in `construct_instance`, file-type fields are deferred: the call
sequence splits into the selected non-`FileField` calls followed by the
selected `FileField` calls, and every selected field is called. `runPlan`
executes `constructPlan` front to back, so every `save_form_data` call on a
non-file field happens before every call on a file field. -/
theorem construct_instance_defers_file_fields (cleaned : List (String × Val))
    (fields : Option (List String)) (exclude : List String)
    (metaFields : List Field) :
    ∃ pre post,
      constructPlan cleaned fields exclude metaFields = pre ++ post ∧
      (∀ f ∈ pre, f.isFileField = false) ∧
      (∀ f ∈ post, f.isFileField = true) ∧
      ∀ f ∈ metaFields, fieldSelected cleaned fields exclude f = true →
        f ∈ pre ++ post := by
  refine ⟨(metaFields.filter (fieldSelected cleaned fields exclude)).filter
      (fun f => !f.isFileField),
    (metaFields.filter (fieldSelected cleaned fields exclude)).filter
      (fun f => f.isFileField), rfl, ?_, ?_, ?_⟩
  · intro f hf
    simpa using (List.mem_filter.mp hf).2
  · intro f hf
    simpa using (List.mem_filter.mp hf).2
  · intro f hf hsel
    cases hb : f.isFileField with
    | false =>
        exact List.mem_append.mpr (Or.inl (List.mem_filter.mpr
          ⟨List.mem_filter.mpr ⟨hf, hsel⟩, by simp [hb]⟩))
    | true =>
        exact List.mem_append.mpr (Or.inr (List.mem_filter.mpr
          ⟨List.mem_filter.mpr ⟨hf, hsel⟩, by simp [hb]⟩))

theorem construct_instance_defers_file_fields_witness :
    ∃ pre post,
      constructPlan articleCleaned none [] articleInstance.metaFields
        = pre ++ post ∧
      (∀ f ∈ pre, f.isFileField = false) ∧
      (∀ f ∈ post, f.isFileField = true) ∧
      ∀ f ∈ articleInstance.metaFields,
        fieldSelected articleCleaned none [] f = true → f ∈ pre ++ post :=
  construct_instance_defers_file_fields articleCleaned none []
    articleInstance.metaFields

/-- C3: `construct_instance` skips non-editable fields: a meta field with
`editable = false` receives no `save_form_data` call, and (meta field names
being distinct) the instance attribute it governs is left unchanged. -/
theorem construct_instance_skips_non_editable (cleaned : List (String × Val))
    (fields : Option (List String)) (exclude : List String) (inst : DocInstance)
    (f : Field) (hmem : f ∈ inst.metaFields) (hed : f.editable = false)
    (hnodup : (inst.metaFields.map Field.name).Nodup) :
    f ∉ constructPlan cleaned fields exclude inst.metaFields ∧
    getValue (construct_instance cleaned inst fields exclude).1.values f.name
      = getValue inst.values f.name :=
  construct_skips_unselected cleaned fields exclude inst f hmem hnodup
    (fieldSelected_eq_false _ _ _ _ (Or.inr (Or.inl hed)))

theorem construct_instance_skips_non_editable_witness :
    lockedField ∉ constructPlan articleCleaned none [] articleInstance.metaFields ∧
    getValue (construct_instance articleCleaned articleInstance none []).1.values
        lockedField.name
      = getValue articleInstance.values lockedField.name :=
  construct_instance_skips_non_editable articleCleaned none [] articleInstance
    lockedField (by decide) (by decide) (by decide)

/-- C9: `construct_instance` returns the very instance it was given (same
object identity) and never calls the instance's database save; and every meta
field that is an `ObjectIdField`, is absent from `cleaned_data`, is not in the
given `fields` list, is in the `exclude` list, or raises `AttributeError`
during inspection gets no `save_form_data` call and keeps its attribute value
(meta field names being distinct). -/
theorem construct_instance_identity_and_frame (cleaned : List (String × Val))
    (inst : DocInstance) (fields : Option (List String)) (exclude : List String) :
    (construct_instance cleaned inst fields exclude).1.objId = inst.objId ∧
    (construct_instance cleaned inst fields exclude).1.saveCount = inst.saveCount ∧
    ∀ f ∈ inst.metaFields, (inst.metaFields.map Field.name).Nodup →
      (f.isObjectIdField = true ∨ getValue cleaned f.name = none ∨
       (∃ fs, fields = some fs ∧ fs.contains f.name = false) ∨
       f.name ∈ exclude ∨ f.hasEditable = false) →
      f ∉ constructPlan cleaned fields exclude inst.metaFields ∧
      getValue (construct_instance cleaned inst fields exclude).1.values f.name
        = getValue inst.values f.name := by
  refine ⟨(runPlan_frame cleaned _ inst).1, (runPlan_frame cleaned _ inst).2.2.2.1, ?_⟩
  intro f hmem hnodup h
  apply construct_skips_unselected cleaned fields exclude inst f hmem hnodup
  apply fieldSelected_eq_false
  rcases h with h|h|h|h|h
  · exact .inr (.inr (.inl h))
  · exact .inr (.inr (.inr (.inl h)))
  · exact .inr (.inr (.inr (.inr (.inl h))))
  · exact .inr (.inr (.inr (.inr (.inr h))))
  · exact .inl h

theorem construct_instance_identity_and_frame_witness :
    idField ∉ constructPlan articleCleaned (some ["title"]) []
        articleInstance.metaFields ∧
    getValue (construct_instance articleCleaned articleInstance
        (some ["title"]) []).1.values idField.name
      = getValue articleInstance.values idField.name :=
  (construct_instance_identity_and_frame articleCleaned articleInstance
      (some ["title"]) []).2.2 idField (by decide) (by decide)
    (Or.inl (by decide))

/-- C8: `BaseDocumentForm.save` is atomic on error: with a non-empty errors
mapping it raises `ValueError` (message picked by the instance's `pk` state:
`created` / `changed` / `embedded document saved`) and never invokes the
instance's save, leaving the instance untouched; on an error-free form it
returns `self.instance`, invoking `instance.save()` exactly when `commit` is
true and instead binding `save_m2m` to the no-op `_save_m2m` when `commit` is
false. -/
theorem save_is_atomic_on_error (form : BaseDocumentForm) (commit : Bool) :
    (form.errors ≠ [] →
      (form.save commit).result = .error (.valueError ("The " ++
        form.inst.className ++ " could not be " ++
        failMessage form.inst.pkState ++ " because the data didn" ++ apos ++
        "t validate.")) ∧
      (form.save commit).finalInstance = form.inst) ∧
    (form.errors = [] →
      (form.save commit).result = .ok (form.save commit).finalInstance ∧
      (form.save commit).finalInstance.saveCount
        = form.inst.saveCount + (if commit then 1 else 0) ∧
      (form.save commit).finalInstance.objId = form.inst.objId ∧
      (form.save commit).m2mRebound = !commit ∧
      BaseDocumentForm.save_m2m_noop form = form) ∧
    failMessage .noPk = "created" ∧ (∀ v, failMessage (.pk v) = "changed") ∧
    failMessage .pkRaises = "embedded document saved" := by
  refine ⟨?_, ?_, rfl, fun v => rfl, rfl⟩
  · intro herr
    have hne : form.errors.isEmpty = false := by
      cases hE : form.errors with
      | nil => exact absurd hE herr
      | cons a l => rfl
    simp [BaseDocumentForm.save, hne]
  · intro herr
    have hne : form.errors.isEmpty = true := by simp [herr]
    cases commit with
    | true =>
        simp [BaseDocumentForm.save, hne, DocInstance.dbSave,
          BaseDocumentForm.save_m2m_noop]
    | false =>
        simp [BaseDocumentForm.save, hne, BaseDocumentForm.save_m2m_noop]

theorem fieldSelected_cleaned_isSome (cleaned : List (String × Val))
    (fields : Option (List String)) (exclude : List String) (f : Field)
    (h : fieldSelected cleaned fields exclude f = true) :
    (getValue cleaned f.name).isSome = true := by
  unfold fieldSelected at h
  simp only [Bool.and_eq_true] at h
  exact h.1.1.2.2

theorem isEmpty_false_of_mem {α : Type} {a : α} {l : List α} (h : a ∈ l) :
    l.isEmpty = false := by
  cases l with
  | nil => cases h
  | cons x xs => rfl

theorem mem_fields_for_model_unknown (m : DocModel) (fs : List String)
    (f : String) (hf : f ∈ fs) (hfm : f ∉ m.fieldNames) :
    (f, false) ∈ fields_for_model m (some fs) none := by
  unfold fields_for_model
  apply List.mem_filterMap.mpr
  refine ⟨f, hf, ?_⟩
  simp [hfm]

theorem metaclassNewModel_requires_fields (name : String)
    (opts : DocumentFormOptions) (declared : List String) (m : DocModel)
    (hmodel : opts.model = some m) (hf : opts.fields = .noneV)
    (he : opts.exclude = .noneV) :
    metaclassNewModel name opts declared
      = .error (.improperlyConfigured (needsFieldsMsg name)) := by
  unfold metaclassNewModel
  simp only [hmodel]
  rw [if_pos ⟨hf, he⟩]

theorem metaclassNewModel_unknown_field (name : String)
    (opts : DocumentFormOptions) (declared : List String) (m : DocModel)
    (fs : List String) (f : String) (hmodel : opts.model = some m)
    (hfields : opts.fields = .listV fs) (hexcl : opts.exclude = .noneV)
    (hffs : f ∈ fs) (hfm : f ∉ m.fieldNames) (hfd : f ∉ declared) :
    ∃ msg, metaclassNewModel name opts declared = .error (.fieldError msg) := by
  have hmem : f ∈ List.filter (fun k => !declared.contains k)
      (List.map Prod.fst (List.filter (fun p => p.2 = false)
        (fields_for_model m (some fs) none))) := by
    apply List.mem_filter.mpr
    refine ⟨?_, by simp [hfd]⟩
    apply List.mem_map.mpr
    refine ⟨(f, false), ?_, rfl⟩
    apply List.mem_filter.mpr
    exact ⟨mem_fields_for_model_unknown m fs f hffs hfm, by simp⟩
  have hne : ¬(List.filter (fun k => !declared.contains k)
      (List.map Prod.fst (List.filter (fun p => p.2 = false)
        (fields_for_model m (some fs) none)))).isEmpty = true := by
    rw [isEmpty_false_of_mem hmem]
    simp
  unfold metaclassNewModel
  simp only [hmodel, hfields, hexcl]
  rw [if_neg (fun hc => MetaVal.noConfusion hc.1)]
  rw [if_neg (fun hc => MetaVal.noConfusion hc)]
  simp only [metaValToNames]
  rw [if_neg hne]
  exact ⟨_, rfl⟩

theorem save_is_atomic_on_error_witness :
    (invalidForm.save true).result = .error (.valueError ("The " ++
      invalidForm.inst.className ++ " could not be " ++
      failMessage invalidForm.inst.pkState ++ " because the data didn" ++
      apos ++ "t validate.")) ∧
    (invalidForm.save true).finalInstance = invalidForm.inst :=
  (save_is_atomic_on_error invalidForm true).1 (by decide)

/-- C1: `_post_clean` writes the bound form's `cleaned_data` onto the document
instance via `construct_instance`: when no descriptor raises, the form's
errors are untouched and every planned field's instance attribute ends up
equal to its cleaned value; when `construct_instance` raises a mongoengine
`ValidationError`, the failure is recorded as a form error instead of
propagating. -/
theorem post_clean_constructs_instance (form : BaseDocumentForm)
    (hnodup : (form.modelMetaFields.map Field.name).Nodup) :
    ((∀ f ∈ constructPlan form.cleaned_data form.optsFields
        form.validationExclusions form.modelMetaFields, f.saveError = none) →
      form.post_clean.errors = form.errors ∧
      ∀ f ∈ constructPlan form.cleaned_data form.optsFields
          form.validationExclusions form.modelMetaFields,
        getValue form.post_clean.inst.values f.name
          = getValue form.cleaned_data f.name) ∧
    ∀ e, (construct_instance form.cleaned_data
        { form.inst with metaFields := form.modelMetaFields }
        form.optsFields form.validationExclusions).2 = some e →
      form.post_clean.errors = form.errors ++ [e.msg] := by
  constructor
  · intro hok
    have h2 : (construct_instance form.cleaned_data
        { form.inst with metaFields := form.modelMetaFields }
        form.optsFields form.validationExclusions).2 = none :=
      runPlan_no_error form.cleaned_data _ _ hok
    constructor
    · simp only [BaseDocumentForm.post_clean, h2]
    · intro f hf
      simp only [BaseDocumentForm.post_clean, h2]
      have hnodup1 := constructPlan_names_nodup form.cleaned_data
        form.optsFields form.validationExclusions form.modelMetaFields hnodup
      have hw := runPlan_writes form.cleaned_data _
        { form.inst with metaFields := form.modelMetaFields } hnodup1 hok f hf
      have hsome : (getValue form.cleaned_data f.name).isSome = true :=
        fieldSelected_cleaned_isSome _ _ _ _
          ((mem_constructPlan _ _ _ _ f).mp hf).2
      obtain ⟨v, hv⟩ := Option.isSome_iff_exists.mp hsome
      rw [hv] at hw ⊢
      simpa using hw
  · intro e he
    simp only [BaseDocumentForm.post_clean, he]

theorem post_clean_constructs_instance_witness :
    validForm.post_clean.errors = validForm.errors ∧
    ∀ f ∈ constructPlan validForm.cleaned_data validForm.optsFields
        validForm.validationExclusions validForm.modelMetaFields,
      getValue validForm.post_clean.inst.values f.name
        = getValue validForm.cleaned_data f.name :=
  (post_clean_constructs_instance validForm (by decide)).1 (by decide)

/-- C4: a `Meta` whose `fields`, `exclude` or `localized_fields` is a string
other than the `ALL_FIELDS` sentinel makes class creation raise `TypeError`
with the one-element tuple suggestion, while strings equal to the sentinel
pass the check (class creation never raises `TypeError` then). -/
theorem metaclass_rejects_string_options (name s : String) (meta : MetaRaw)
    (declared : List String) (hs : s ≠ ALL_FIELDS) :
    (meta.fields = .strV s →
      metaclassNew name (some meta) declared
        = .error (.typeError (stringOptMsg name "fields" s))) ∧
    ((∀ t, meta.fields = .strV t → t = ALL_FIELDS) → meta.exclude = .strV s →
      metaclassNew name (some meta) declared
        = .error (.typeError (stringOptMsg name "exclude" s))) ∧
    ((∀ t, meta.fields = .strV t → t = ALL_FIELDS) →
      (∀ t, meta.exclude = .strV t → t = ALL_FIELDS) →
      meta.localized_fields = .strV s →
      metaclassNew name (some meta) declared
        = .error (.typeError (stringOptMsg name "localized_fields" s))) ∧
    ((∀ t, meta.fields = .strV t → t = ALL_FIELDS) →
      (∀ t, meta.exclude = .strV t → t = ALL_FIELDS) →
      (∀ t, meta.localized_fields = .strV t → t = ALL_FIELDS) →
      ∀ e, metaclassNew name (some meta) declared ≠ .error (.typeError e)) := by
  refine ⟨?_, ?_, ?_, ?_⟩
  · intro hf
    have h1 : stringOptCheck name "fields"
        (mkDocumentFormOptions (some meta)).1.fields
        = .error (.typeError (stringOptMsg name "fields" s)) := by
      rw [mkDocumentFormOptions_fields, hf]
      exact stringOptCheck_rejects _ _ _ hs
    simp only [metaclassNew, h1]
  · intro hft hev
    have h1 : stringOptCheck name "fields"
        (mkDocumentFormOptions (some meta)).1.fields = .ok () := by
      rw [mkDocumentFormOptions_fields]
      exact stringOptCheck_passes _ _ _ hft
    have h2 : stringOptCheck name "exclude"
        (mkDocumentFormOptions (some meta)).1.exclude
        = .error (.typeError (stringOptMsg name "exclude" s)) := by
      rw [mkDocumentFormOptions_exclude, hev]
      exact stringOptCheck_rejects _ _ _ hs
    simp only [metaclassNew, h1, h2]
  · intro hft het hlv
    have h1 : stringOptCheck name "fields"
        (mkDocumentFormOptions (some meta)).1.fields = .ok () := by
      rw [mkDocumentFormOptions_fields]
      exact stringOptCheck_passes _ _ _ hft
    have h2 : stringOptCheck name "exclude"
        (mkDocumentFormOptions (some meta)).1.exclude = .ok () := by
      rw [mkDocumentFormOptions_exclude]
      exact stringOptCheck_passes _ _ _ het
    have h3 : stringOptCheck name "localized_fields"
        (mkDocumentFormOptions (some meta)).1.localized_fields
        = .error (.typeError (stringOptMsg name "localized_fields" s)) := by
      rw [mkDocumentFormOptions_localized, hlv]
      exact stringOptCheck_rejects _ _ _ hs
    simp only [metaclassNew, h1, h2, h3]
  · intro hft het hlt e hcontra
    have h1 : stringOptCheck name "fields"
        (mkDocumentFormOptions (some meta)).1.fields = .ok () := by
      rw [mkDocumentFormOptions_fields]
      exact stringOptCheck_passes _ _ _ hft
    have h2 : stringOptCheck name "exclude"
        (mkDocumentFormOptions (some meta)).1.exclude = .ok () := by
      rw [mkDocumentFormOptions_exclude]
      exact stringOptCheck_passes _ _ _ het
    have h3 : stringOptCheck name "localized_fields"
        (mkDocumentFormOptions (some meta)).1.localized_fields = .ok () := by
      rw [mkDocumentFormOptions_localized]
      exact stringOptCheck_passes _ _ _ hlt
    rw [metaclassNew_eq_model name (some meta) declared h1 h2 h3] at hcontra
    rcases metaclassNewModel_error_shape _ _ _ _ hcontra with h | ⟨mm, hmm⟩
    · exact PyExc.noConfusion h
    · exact PyExc.noConfusion hmm

theorem metaclass_rejects_string_options_witness :
    metaclassNew "ArticleForm" (some badFieldsMeta) []
      = .error (.typeError (stringOptMsg "ArticleForm" "fields" "title")) :=
  (metaclass_rejects_string_options "ArticleForm" "title" badFieldsMeta []
    (by decide)).1 rfl

/-- C6: with a model configured, a form that sets neither `fields` nor
`exclude` makes class creation raise Django's `ImproperlyConfigured`; and
`opts.fields` naming a field unknown to the model and not declared on the
form makes it raise Django's `FieldError`. -/
theorem metaclass_model_configuration_errors (name : String) (meta : MetaRaw)
    (declared : List String) (m : DocModel) (hm : meta.document = some m)
    (hl : ∀ t, meta.localized_fields = .strV t → t = ALL_FIELDS) :
    (meta.fields = .noneV → meta.exclude = .noneV →
      metaclassNew name (some meta) declared
        = .error (.improperlyConfigured (needsFieldsMsg name))) ∧
    ∀ fs f, meta.fields = .listV fs → meta.exclude = .noneV →
      f ∈ fs → f ∉ m.fieldNames → f ∉ declared →
      ∃ msg, metaclassNew name (some meta) declared
        = .error (.fieldError msg) := by
  have hmodel : (mkDocumentFormOptions (some meta)).1.model = some m := by
    rw [mkDocumentFormOptions_model_eq, hm]
    rfl
  have h3 : stringOptCheck name "localized_fields"
      (mkDocumentFormOptions (some meta)).1.localized_fields = .ok () := by
    rw [mkDocumentFormOptions_localized]
    exact stringOptCheck_passes _ _ _ hl
  constructor
  · intro hfv hev
    have h1 : stringOptCheck name "fields"
        (mkDocumentFormOptions (some meta)).1.fields = .ok () := by
      rw [mkDocumentFormOptions_fields, hfv]
      rfl
    have h2 : stringOptCheck name "exclude"
        (mkDocumentFormOptions (some meta)).1.exclude = .ok () := by
      rw [mkDocumentFormOptions_exclude, hev]
      rfl
    rw [metaclassNew_eq_model name (some meta) declared h1 h2 h3]
    exact metaclassNewModel_requires_fields name _ declared m hmodel
      (by rw [mkDocumentFormOptions_fields, hfv])
      (by rw [mkDocumentFormOptions_exclude, hev])
  · intro fs f hfv hev hffs hfm hfd
    have h1 : stringOptCheck name "fields"
        (mkDocumentFormOptions (some meta)).1.fields = .ok () := by
      rw [mkDocumentFormOptions_fields, hfv]
      rfl
    have h2 : stringOptCheck name "exclude"
        (mkDocumentFormOptions (some meta)).1.exclude = .ok () := by
      rw [mkDocumentFormOptions_exclude, hev]
      rfl
    rw [metaclassNew_eq_model name (some meta) declared h1 h2 h3]
    exact metaclassNewModel_unknown_field name _ declared m fs f hmodel
      (by rw [mkDocumentFormOptions_fields, hfv])
      (by rw [mkDocumentFormOptions_exclude, hev]) hffs hfm hfd

theorem metaclass_model_configuration_errors_witness :
    metaclassNew "ArticleForm" (some noFieldsMeta) []
      = .error (.improperlyConfigured (needsFieldsMsg "ArticleForm")) :=
  (metaclass_model_configuration_errors "ArticleForm" noFieldsMeta []
    articleModel rfl (fun _ ht => MetaVal.noConfusion ht)).1 rfl rfl

/-- C10: `DocumentFormOptions` resolves the model from the options block with
`document` taking precedence over `model` (and `None` when neither is set or
there is no `Meta`), and a resolved model is written back onto the options
object's `model` attribute. -/
theorem documentFormOptions_model_resolution :
    (∀ (o : MetaRaw) (d : DocModel), o.document = some d →
      (mkDocumentFormOptions (some o)).1.model = some d ∧
      (mkDocumentFormOptions (some o)).2 = some { o with model := some d }) ∧
    (∀ o : MetaRaw, o.document = none →
      (mkDocumentFormOptions (some o)).1.model = o.model ∧
      (o.model = none → (mkDocumentFormOptions (some o)).2 = some o) ∧
      ∀ mm, o.model = some mm →
        (mkDocumentFormOptions (some o)).2
          = some { o with model := some mm }) ∧
    (mkDocumentFormOptions none).1.model = none ∧
    (mkDocumentFormOptions none).2 = none := by
  refine ⟨?_, ?_, rfl, rfl⟩
  · intro o d hd
    constructor
    · rw [mkDocumentFormOptions_model_eq, hd]
      rfl
    · simp [mkDocumentFormOptions, hd, Option.orElse]
  · intro o hd
    refine ⟨?_, ?_, ?_⟩
    · rw [mkDocumentFormOptions_model_eq, hd]
      rfl
    · intro hm
      simp [mkDocumentFormOptions, hd, hm, Option.orElse]
    · intro mm hm
      simp [mkDocumentFormOptions, hd, hm, Option.orElse]

theorem documentFormOptions_model_resolution_witness :
    (mkDocumentFormOptions (some docAndModelMeta)).1.model
      = some articleModel ∧
    (mkDocumentFormOptions (some docAndModelMeta)).2
      = some { docAndModelMeta with model := some articleModel } :=
  documentFormOptions_model_resolution.1 docAndModelMeta articleModel rfl

/-- C5: `documentform_factory` is a pure parameter-forwarding wrapper: for
every host `modelform_factory` and every argument combination (the model,
form class, fields, exclude, formfield_callback, widgets, localized_fields,
labels, help_texts, error_messages and the trailing extra arguments) it
returns exactly `modelform_factory`'s result on the same arguments in the
same order, adding no behaviour of its own. -/
theorem documentform_factory_forwards {M F C W L La H E X R : Type}
    (mff : M → F → Option (List String) → Option (List String) → Option C →
      Option W → Option L → Option La → Option H → Option E → List X → R)
    (model : M) (form : F) (fields exclude : Option (List String))
    (formfield_callback : Option C) (widgets : Option W)
    (localized_fields : Option L) (labels : Option La)
    (help_texts : Option H) (error_messages : Option E) (extra : List X) :
    documentform_factory mff model form fields exclude formfield_callback
        widgets localized_fields labels help_texts error_messages extra
      = mff model form fields exclude formfield_callback widgets
        localized_fields labels help_texts error_messages extra := rfl

/-- C7 counterexample: the metaclass's string-for-sequence check raises
`TypeError`, an exception outside the configuration/field/validation
taxonomy the claim allows. -/
theorem adapter_error_taxonomy_counterexample :
    metaclassNew "ArticleForm" (some stringMetaX) []
      = .error (.typeError (stringOptMsg "ArticleForm" "fields" "fo")) ∧
    inSpecTaxonomy (.typeError (stringOptMsg "ArticleForm" "fields" "fo"))
      = false := by
  constructor
  · have h1 : stringOptCheck "ArticleForm" "fields"
        (mkDocumentFormOptions (some stringMetaX)).1.fields
        = .error (.typeError (stringOptMsg "ArticleForm" "fields" "fo")) := by
      rw [mkDocumentFormOptions_fields]
      exact stringOptCheck_rejects _ _ _ (by decide)
    simp only [metaclassNew, h1]
  · rfl

/-- C7 amended: every exception the adapter raises is a host-framework
exception or mirrors one the host form machinery itself raises, one-to-one:
class creation raises only `TypeError`, `ImproperlyConfigured` or
`FieldError`; `save` raises only `ValueError`; `_post_clean` raises nothing,
translating the document mapper's `ValidationError` into form errors. -/
theorem adapter_error_taxonomy_amended :
    (∀ (name : String) (meta : Option MetaRaw) (declared : List String)
        (e : PyExc), metaclassNew name meta declared = .error e →
      (∃ m, e = .typeError m) ∨ (∃ m, e = .improperlyConfigured m) ∨
      ∃ m, e = .fieldError m) ∧
    (∀ (form : BaseDocumentForm) (commit : Bool) (e : PyExc),
      (form.save commit).result = .error e → ∃ m, e = .valueError m) ∧
    ∀ (form : BaseDocumentForm) (e : MongoValidationError),
      (construct_instance form.cleaned_data
        { form.inst with metaFields := form.modelMetaFields }
        form.optsFields form.validationExclusions).2 = some e →
      form.post_clean.errors = form.errors ++ [e.msg] := by
  refine ⟨?_, ?_, ?_⟩
  · intro name meta declared e h
    simp only [metaclassNew] at h
    cases h1 : stringOptCheck name "fields"
        (mkDocumentFormOptions meta).1.fields with
    | error e1 =>
        simp only [h1] at h
        cases h
        exact Or.inl (stringOptCheck_error_shape _ _ _ _ h1)
    | ok u1 =>
        cases u1
        simp only [h1] at h
        cases h2 : stringOptCheck name "exclude"
            (mkDocumentFormOptions meta).1.exclude with
        | error e2 =>
            simp only [h2] at h
            cases h
            exact Or.inl (stringOptCheck_error_shape _ _ _ _ h2)
        | ok u2 =>
            cases u2
            simp only [h2] at h
            cases h3 : stringOptCheck name "localized_fields"
                (mkDocumentFormOptions meta).1.localized_fields with
            | error e3 =>
                simp only [h3] at h
                cases h
                exact Or.inl (stringOptCheck_error_shape _ _ _ _ h3)
            | ok u3 =>
                cases u3
                simp only [h3] at h
                rcases metaclassNewModel_error_shape _ _ _ _ h with
                  hic | ⟨mm, hmm⟩
                · exact Or.inr (Or.inl ⟨_, hic⟩)
                · exact Or.inr (Or.inr ⟨mm, hmm⟩)
  · intro form commit e h
    unfold BaseDocumentForm.save at h
    split at h
    · dsimp only at h
      cases h
      exact ⟨_, rfl⟩
    · split at h
      · dsimp only at h
        cases h
      · dsimp only at h
        cases h
  · intro form e he
    simp only [BaseDocumentForm.post_clean, he]

theorem adapter_error_taxonomy_amended_witness :
    (∃ m, (PyExc.typeError (stringOptMsg "ArticleForm" "fields" "fo") : PyExc)
        = .typeError m) ∨
    (∃ m, (PyExc.typeError (stringOptMsg "ArticleForm" "fields" "fo") : PyExc)
        = .improperlyConfigured m) ∨
    ∃ m, (PyExc.typeError (stringOptMsg "ArticleForm" "fields" "fo") : PyExc)
        = .fieldError m :=
  adapter_error_taxonomy_amended.1 "ArticleForm" (some stringMetaX) []
    (.typeError (stringOptMsg "ArticleForm" "fields" "fo"))
    (by
      have h1 : stringOptCheck "ArticleForm" "fields"
          (mkDocumentFormOptions (some stringMetaX)).1.fields
          = .error (.typeError (stringOptMsg "ArticleForm" "fields" "fo")) := by
        rw [mkDocumentFormOptions_fields]
        exact stringOptCheck_rejects _ _ _ (by decide)
      simp only [metaclassNew, h1])

end DjangoMongoengine
